import Mathlib

/-!
Verification of the libalpaca telescope bridge against its specification.

The definitions below are shallow embeddings of the C++ sources:

* `include/c++util.hpp` — the `result` sum type, `first_error`, and the n-ary
  `visit` (join) combinator.
* `include/errors.hpp` — the Alpaca error taxonomy.
* `unnamed/part_005` (an iteration of `include/device.hpp`) — the device
  precondition checks and the `device_resource::handle_get` dispatcher.
* `include/telescope.hpp` (the `visit`-based facade iteration) — the gated
  telescope operations `priv_moveaxis`, `priv_findhome`,
  `priv_put_declinationrate`, `priv_put_targetdeclination`,
  `priv_put_targetrightascension`.
* `include/celestron/celestron.hpp` — the NexStar codec helpers
  (`degree_to_nexstar`, `nexstar_to_degree`, `fix_declination`,
  `slew_variable_command_t`), the `celestron_telescope` target bookkeeping
  and the `simulator_protocol` kinematics.
* `include/resource.hpp` — the per-request `ServerTransactionID` counter.

Machine floats (`float`, IEEE-754 binary32) are modelled exactly over `ℚ` by
`rnd32`, which performs round-to-nearest-even at 24 bits of precision; the
angle-codec functions carry the suffix `_f32` when they follow the float
evaluation of the source and `_exact` when they follow the formulas of the specification in exact rational arithmetic.
-/

namespace alpaca

/-- The `result<Tp, Err>` sum type of `include/c++util.hpp`: exactly one of a
carried value (`ok`) or an error (`error`). -/
inductive result (α ε : Type) where
  | ok (val : α)
  | error (err : ε)
deriving DecidableEq

namespace result

/-- `result::is_error()`. -/
def is_error : result α ε → Bool
  | .ok _ => false
  | .error _ => true

/-- `result::get()`: reads the value side. On the error side the C++ source
reads the inactive union member (unspecified); the model returns `default`. -/
def get_val [Inhabited α] : result α ε → α
  | .ok v => v
  | .error _ => default

/-- `result::error()`: reads the error side. On the ok side the C++ source
reads the inactive union member (unspecified); the model returns `default`. -/
def get_err [Inhabited ε] : result α ε → ε
  | .ok _ => default
  | .error e => e

/-- `result::map`: applies `f` only on `ok`; `error` passes through. -/
def map (f : α → β) : result α ε → result β ε
  | .ok v => .ok (f v)
  | .error e => .error e

/-- `result::flat_map`: monadic bind; `error` passes through. -/
def flat_map (f : α → result β ε) : result α ε → result β ε
  | .ok v => f v
  | .error e => .error e

end result

/-- `__detail::first_error` of `include/c++util.hpp` (lines 135–147): scans a
non-empty argument pack left to right; at the last argument it reads the error
side unconditionally, otherwise it reads the first argument whose
`is_error()` holds. -/
def first_error [Inhabited ε] : result α ε → List (result α ε) → ε
  | head, [] => head.get_err
  | head, t :: ts => if head.is_error then head.get_err else first_error t ts

/-- The value-carrying n-ary `visit` (join) of `include/c++util.hpp`
(lines 488–517), on a homogeneous non-empty list of results: if any argument
is an error, return the first error; otherwise invoke `f` on the carried
values. -/
def visit [Inhabited α] [Inhabited ε] (f : List α → β)
    (r : result α ε) (rs : List (result α ε)) : result β ε :=
  if (r :: rs).any (·.is_error) then .error (first_error r rs)
  else .ok (f ((r :: rs).map (·.get_val)))

/-- The all-`void` overload of `visit` as used by the telescope facade: the
check arguments carry no value, and when all checks pass the driver call `fn`
is invoked and its `result` is returned (flattened one level). -/
def visit_void [Inhabited ε] (fn : Unit → result β ε)
    (r : result Unit ε) (rs : List (result Unit ε)) : result β ε :=
  if (r :: rs).any (·.is_error) then .error (first_error r rs)
  else fn ()

/-- `alpaca_error` of `include/errors.hpp`: a numbered error with a canonical
message. -/
structure alpaca_error where
  error_number : ℕ
  error_message : String
deriving DecidableEq

instance : Inhabited alpaca_error := ⟨⟨0, ""⟩⟩

/-- Reserved error code 0x400: property or method not implemented. -/
def not_implemented : alpaca_error := ⟨0x400, "Not implemented"⟩

/-- Reserved error code 0x401: invalid value. -/
def invalid_value : alpaca_error := ⟨0x401, "Invalid value"⟩

/-- Reserved error code 0x402: value has not been set. -/
def value_not_set : alpaca_error := ⟨0x402, "Value not set"⟩

/-- Reserved error code 0x407: communications channel is not connected. -/
def not_connected : alpaca_error := ⟨0x407, "Not connected"⟩

/-- Reserved error code 0x40B: the operation cannot be undertaken now. -/
def invalid_operation : alpaca_error := ⟨0x40B, "Invalid operation"⟩

/-- `http_error(status, msg)` of `unnamed/part_005`: dispatcher-level failure
carried as code `0x1000 + status`. -/
def http_error (status : ℕ) (msg : String) : alpaca_error := ⟨0x1000 + status, msg⟩

/-- `check_t = result<void, alpaca_error>` of `unnamed/part_005`. -/
abbrev check_t := result Unit alpaca_error

/-- `device::check_connected` (`unnamed/part_005` lines 38–42): ok iff the
connection flag is set, else `not_connected`. -/
def check_connected (is_connected : Bool) : check_t :=
  if is_connected then .ok () else .error not_connected

/-- `device::check_flag` (`unnamed/part_005` lines 44–51): flat-maps the
capability result; a `false` capability becomes `not_implemented`. -/
def check_flag (flag : result Bool alpaca_error) : check_t :=
  flag.flat_map fun b => if b then .ok () else .error not_implemented

/-- `device::check_value`: ok iff the predicate holds, else `invalid_value`. -/
def check_value (correct : Bool) : check_t :=
  if correct then .ok () else .error invalid_value

/-- `device::check_set`: ok iff the predicate holds, else `value_not_set`. -/
def check_set (set : Bool) : check_t :=
  if set then .ok () else .error value_not_set

/-! ### Telescope capability word and facade gates (`include/telescope.hpp`,
`visit`-based iteration). Capability getters test one bit of the fixed
`telescopeinfo.flags` word. Angle and rate arguments, `float` in the source,
are modelled as exact rationals; the gate comparisons below are exact on the
representable threshold values. -/

/-- `telescope::get_canfindhome`: bit `can_find_home = 0x00001`. -/
def get_canfindhome (flags : ℕ) : Bool := flags &&& 0x00001 != 0

/-- `telescope::get_cansetdeclinationrate`: bit
`can_set_declination_rate = 0x00008`. -/
def get_cansetdeclinationrate (flags : ℕ) : Bool := flags &&& 0x00008 != 0

/-- `telescope::get_canmoveaxis`: bit `can_move_axis_0 = 0x10000` shifted left
by the axis number. -/
def get_canmoveaxis (flags : ℕ) (axis : ℤ) : Bool :=
  flags &&& (0x10000 <<< axis.toNat) != 0

/-- `telescope::check_axis`: `check_value(axis >= 0 && axis <= 2)`. -/
def check_axis (axis : ℤ) : check_t :=
  check_value (decide (0 ≤ axis ∧ axis ≤ 2))

/-- `telescope::priv_moveaxis` (`include/telescope.hpp` lines 1642–1652):
`visit` of the driver call `moveaxis(axis, rate)` gated by `check_connected`,
`check_axis`, `check_flag(get_canmoveaxis(axis))` and
`check_value(rate > -9 && rate < +9)`, in that order. The driver-facing
method `moveaxis` is a parameter of the model. -/
def priv_moveaxis (is_connected : Bool) (flags : ℕ)
    (moveaxis : ℤ → ℚ → check_t) (axis : ℤ) (rate : ℚ) : check_t :=
  visit_void (fun _ => moveaxis axis rate)
    (check_connected is_connected)
    [check_axis axis,
     check_flag (.ok (get_canmoveaxis flags axis)),
     check_value (decide (-9 < rate ∧ rate < 9))]

/-- `telescope::priv_findhome` (`include/telescope.hpp` lines 1632–1640). -/
def priv_findhome (is_connected : Bool) (flags : ℕ)
    (findhome : Unit → check_t) : check_t :=
  visit_void findhome
    (check_connected is_connected)
    [check_flag (.ok (get_canfindhome flags))]

/-- `telescope::priv_put_declinationrate` (`include/telescope.hpp`
lines 1350–1358). -/
def priv_put_declinationrate (is_connected : Bool) (flags : ℕ)
    (put_declinationrate : ℚ → check_t) (declinationrate : ℚ) : check_t :=
  visit_void (fun _ => put_declinationrate declinationrate)
    (check_connected is_connected)
    [check_flag (.ok (get_cansetdeclinationrate flags))]

/-! ### Dispatcher (`device_resource::handle_get`, `unnamed/part_005`
lines 151–190). The model abstracts over the device type `δ` and the JSON
value type `γ`. The `device_id` argument is the integer produced by
`util::parse_int(path_piece(3), -1)`. `devices[device_id]` in the source is an
unguarded `std::vector` index; the model returns `none` exactly when that
index is out of bounds (undefined behaviour in the source). -/

def handle_get {δ γ : Type} (device_type : String) (devices : List δ)
    (get_operations : String → Option (δ → result γ alpaca_error))
    (put_operations : String → Option (δ → result Unit alpaca_error))
    (null_json : γ)
    (method piece2 : String) (device_id : ℤ) (operation : String) :
    Option (result γ alpaca_error) :=
  if piece2 ≠ device_type then
    some (.error (http_error 404 "not found"))
  else if device_id < 0 ∨ (devices.length : ℤ) < device_id then
    some (.error (http_error 404 "not found"))
  else
    match devices.get? device_id.toNat with
    | none => none
    | some dev =>
      if method = "GET" then
        match get_operations operation with
        | some op => some (op dev)
        | none => some (.error (http_error 404 "not found"))
      else if method = "PUT" then
        match put_operations operation with
        | some op => some ((op dev).map fun _ => null_json)
        | none => some (.error (http_error 404 "not found"))
      else
        some (.error (http_error 400 "bad request"))

/-! ### Pass-through slew-variable command
(`celestron::slew_variable_command_t`, `include/celestron/celestron.hpp`
lines 298–319). Device ids: `azm_motor = 16`, `alt_motor = 17`; command ids:
`slew_variable_positive = 6`, `slew_variable_negative = 7`. The byte list is
`[always_P, request_arguments, device, command, args[0], args[1], args[2],
response_arguments]`. `static_cast<int>` of the non-negative float
`abs(rate * 3600 * 4)` truncates, i.e. takes the floor. -/

def slew_variable_command (axis : ℤ) (rate : ℚ) : List ℕ :=
  let rate_abs : ℕ := (⌊|rate * 3600 * 4|⌋).toNat
  let command : ℕ := if 0 ≤ rate then 7 else 6
  let device : ℕ := if axis = 0 then 16 else 17
  let hi : ℕ := (rate_abs >>> 8) &&& 0xff
  let lo : ℕ := rate_abs &&& 0xff
  [80, 3, device, command, hi, lo, 0, 0]

/-! ### Simulator kinematics (`celestron::simulator_protocol`,
`include/celestron/celestron.hpp` lines 694–771). In the source
`dist = sqrt(diff * diff)` with correctly rounded binary32 square and square
root, which equals `|diff|` exactly; the per-axis rule is otherwise modelled
in exact rational arithmetic. -/

/-- `simulator_protocol::step(target, actual, delta_time)` (lines 722–740):
snap when the distance is at most 0.1, otherwise advance by
`min(diff * rate, 9) * delta_time` with the tiered speed factor. -/
def step_axis (target actual delta_time : ℚ) : ℚ :=
  let diff := target - actual
  let dist := |diff|
  if dist ≤ 1/10 then target
  else
    let rate : ℚ :=
      if dist ≤ 5 then 1/4
      else if dist ≤ 10 then 1/2
      else if dist ≤ 20 then 3/4
      else 1
    actual + min (diff * rate) 9 * delta_time

/-- Simulator motion state (`state_kind`). -/
inductive state_kind where
  | no_op
  | slewing
  | moving
deriving DecidableEq

/-- The kinematic state of the simulator. -/
structure simulator_state where
  target_rightascension : ℚ
  target_declination : ℚ
  rightascension : ℚ
  declination : ℚ
  slew_rate0 : ℚ
  slew_rate1 : ℚ
  state : state_kind
deriving DecidableEq

/-- `simulator_protocol::step()` (lines 742–771) at a given elapsed
`delta_time`: in `slewing`, step both axes and fall back to `no_op` exactly
when both reached their targets; in `moving`, integrate the slew rates. -/
def sim_step (s : simulator_state) (delta_time : ℚ) : simulator_state :=
  match s.state with
  | .no_op => s
  | .slewing =>
    let ra := step_axis s.target_rightascension s.rightascension delta_time
    let de := step_axis s.target_declination s.declination delta_time
    { s with
      rightascension := ra
      declination := de
      state :=
        if s.target_rightascension ≠ ra ∨ s.target_declination ≠ de then
          .slewing
        else .no_op }
  | .moving =>
    { s with
      rightascension := s.rightascension + s.slew_rate0 * delta_time
      declination := s.declination + s.slew_rate1 * delta_time }

/-! ### Celestron target bookkeeping (`celestron::celestron_telescope`,
`include/celestron/celestron.hpp` lines 1189–1213) composed with the facade
gates of `include/telescope.hpp` (lines 1529–1565). The target fields are
initialised to the sentinel 100; a getter succeeds only once the stored value
is below 100. -/

/-- The driver-maintained dynamic state: connection flag and the two target
fields (sentinel 100 = never written). -/
structure celestron_target_state where
  is_connected : Bool
  targetdeclination : ℚ
  targetrightascension : ℚ
deriving DecidableEq

/-- A freshly constructed `celestron_telescope`: both targets carry the
field-initialiser sentinel 100. -/
def init_target_state (connected : Bool) : celestron_target_state :=
  ⟨connected, 100, 100⟩

/-- `celestron_telescope::get_targetdeclination`:
`check_set(targetdeclination < 100).map(...)`. -/
def get_targetdeclination (s : celestron_target_state) : result ℚ alpaca_error :=
  (check_set (decide (s.targetdeclination < 100))).map fun _ => s.targetdeclination

/-- `celestron_telescope::get_targetrightascension`:
`check_set(targetrightascension < 100).map(...)`. -/
def get_targetrightascension (s : celestron_target_state) : result ℚ alpaca_error :=
  (check_set (decide (s.targetrightascension < 100))).map fun _ => s.targetrightascension

/-- `telescope::priv_get_targetdeclination`: the getter gated by
`check_connected`. -/
def priv_get_targetdeclination (s : celestron_target_state) : result ℚ alpaca_error :=
  visit_void (fun _ => get_targetdeclination s) (check_connected s.is_connected) []

/-- `telescope::priv_get_targetrightascension`. -/
def priv_get_targetrightascension (s : celestron_target_state) : result ℚ alpaca_error :=
  visit_void (fun _ => get_targetrightascension s) (check_connected s.is_connected) []

/-- `telescope::priv_put_targetdeclination` (lines 1538–1546) over the
celestron driver method `put_targetdeclination` (which stores the value and
returns ok): gates `check_connected` and
`check_value(-90 <= v && v <= +90)`; the state is mutated only when the
driver call is reached. -/
def priv_put_targetdeclination (s : celestron_target_state) (v : ℚ) :
    check_t × celestron_target_state :=
  let checks := [check_connected s.is_connected,
                 check_value (decide (-90 ≤ v ∧ v ≤ 90))]
  match checks with
  | r :: rs =>
    if (r :: rs).any (·.is_error) then (.error (first_error r rs), s)
    else (.ok (), { s with targetdeclination := v })
  | [] => (.ok (), s)

/-- `telescope::priv_put_targetrightascension` (lines 1557–1565): gates
`check_connected` and `check_value(0 <= v && v <= +24)`. -/
def priv_put_targetrightascension (s : celestron_target_state) (v : ℚ) :
    check_t × celestron_target_state :=
  let checks := [check_connected s.is_connected,
                 check_value (decide (0 ≤ v ∧ v ≤ 24))]
  match checks with
  | r :: rs =>
    if (r :: rs).any (·.is_error) then (.error (first_error r rs), s)
    else (.ok (), { s with targetrightascension := v })
  | [] => (.ok (), s)

/-! ### Server transaction counter (`alpaca_resource::render`,
`include/resource.hpp` lines 108–116). The counter is a
`static std::atomic<int>`, zero-initialised, pre-incremented once per
rendered request; the incremented value is placed in the envelope. Atomic
`int` arithmetic wraps in twos-complement, modelled by `wrap32`. -/

/-- Twos-complement wrap of an integer into `[-2^31, 2^31)`. -/
def wrap32 (x : ℤ) : ℤ := (x + 2 ^ 31) % 2 ^ 32 - 2 ^ 31

/-- `++server_transaction_id`: one atomic pre-increment. -/
def inc_server_transaction (c : ℤ) : ℤ := wrap32 (c + 1)

/-- The envelope field `ServerTransactionID` after `n` rendered requests (the
`n`-th request receives `server_transaction_after n`; the counter starts
at 0). -/
def server_transaction_after : ℕ → ℤ
  | 0 => 0
  | n + 1 => inc_server_transaction (server_transaction_after n)

end alpaca

namespace celestron

open alpaca

/-! ### Exact model of IEEE-754 binary32 arithmetic. The codec helpers of
`include/celestron/celestron.hpp` compute in `float`; every `float` value is
an exact rational, and every arithmetic operation rounds its exact result to
nearest-even at 24 significand bits. The values arising below are far from
the overflow and subnormal ranges, so the normal-range rounding function
`rnd32` is an exact model. -/

/-- Floor of the base-2 logarithm of a natural number, by fuel recursion
(`log2_fuel n n` is exact for `n ≥ 1`). -/
def log2_fuel : ℕ → ℕ → ℕ
  | 0, _ => 0
  | fuel + 1, n => if n ≤ 1 then 0 else log2_fuel fuel (n / 2) + 1

/-- `⌊log₂ q⌋` for a positive rational `q`: first estimate from the numerator
and denominator, then adjust by at most one. -/
def exp2floor (q : ℚ) : ℤ :=
  let e0 : ℤ := (log2_fuel q.num.toNat q.num.toNat : ℤ) - (log2_fuel q.den q.den : ℤ)
  if (2 : ℚ) ^ (e0 + 1) ≤ q then e0 + 1
  else if q < (2 : ℚ) ^ e0 then e0 - 1
  else e0

/-- Round a rational to the nearest integer, ties to even. -/
def round_half_even (m : ℚ) : ℤ :=
  let f := ⌊m⌋
  let r := m - f
  if r < 1/2 then f
  else if 1/2 < r then f + 1
  else if f % 2 = 0 then f else f + 1

/-- Round-to-nearest-even at 24 significand bits: the binary32 rounding of an
exact rational result in the normal range. -/
def rnd32 (x : ℚ) : ℚ :=
  if x = 0 then 0
  else
    let a := |x|
    let e := exp2floor a
    let n := round_half_even (a * (2 : ℚ) ^ ((23 : ℤ) - e))
    let v := (n : ℚ) * (2 : ℚ) ^ (e - (23 : ℤ))
    if x < 0 then -v else v

/-- Truncation toward zero of a rational to an integer (the C semantics of
`static_cast` from a floating value to an integer type). -/
def trunc_q (q : ℚ) : ℤ := if 0 ≤ q then ⌊q⌋ else -⌊-q⌋

/-- C `fmod`: `x - trunc(x / y) * y`, computed exactly (IEEE `fmod` is always
exact). -/
def fmod_q (x y : ℚ) : ℚ := x - (trunc_q (x / y) : ℚ) * y

/-- `nexstar_protocol::degree_to_nexstar` (lines 460–466), binary32
evaluation: `k = 2^32 / 360.0f` (precise) or `2^16 / 360.0f`, then
`static_cast<uint32>(fmod(angle, 360.0f) * k)`. The integer constants and
`360.0f` convert to `float` exactly; the division and the product each round
once. -/
def degree_to_nexstar_f32 (angle : ℚ) (precise : Bool) : ℤ :=
  let k1 := rnd32 ((2 : ℚ) ^ (32 : ℕ) / 360)
  let k2 := rnd32 ((2 : ℚ) ^ (16 : ℕ) / 360)
  let k := if precise then k1 else k2
  trunc_q (rnd32 (fmod_q angle 360 * k))

/-- `nexstar_protocol::nexstar_to_degree` (lines 450–456), binary32
evaluation: `k = 360.0f / 2^32` (precise) or `360.0f / 2^16`, then
`value * k` with `value` first converted from `uint32` to `float`. -/
def nexstar_to_degree_f32 (value : ℤ) (precise : Bool) : ℚ :=
  let k1 := rnd32 (360 / (2 : ℚ) ^ (32 : ℕ))
  let k2 := rnd32 (360 / (2 : ℚ) ^ (16 : ℕ))
  let k := if precise then k1 else k2
  rnd32 (rnd32 (value : ℚ) * k)

/-- `nexstar_protocol::fix_declination` (lines 469–482), binary32 evaluation:
`fmod` is exact; each subtraction and addition rounds once. -/
def fix_declination_f32 (angle : ℚ) : ℚ :=
  let a := fmod_q angle 360
  let a2 := if a < 0 then rnd32 (a + 360) else a
  if 90 < a2 ∧ a2 ≤ 270 then rnd32 (180 - a2)
  else if 270 < a2 ∧ a2 ≤ 360 then rnd32 (a2 - 360)
  else a2

/-- The declination side of `nexstar_protocol::goto_ra_de` (lines 507–528):
shift negative declinations by +360 (one rounded addition), then encode. -/
def encode_declination_f32 (de : ℚ) (precise : Bool) : ℤ :=
  let de2 := if de < 0 then rnd32 (de + 360) else de
  degree_to_nexstar_f32 de2 precise

/-- The declination decode path: `nexstar_to_degree` as in
`nexstar_protocol::get_ra_de` (lines 484–505) followed by the
`fix_declination` normalisation. -/
def decode_declination_f32 (u : ℤ) (precise : Bool) : ℚ :=
  fix_declination_f32 (nexstar_to_degree_f32 u precise)

/-! ### The conversion formulas of the specification in exact arithmetic
(spec §4.H: `to_nexstar_units(angle, precise) =
floor(fmod(angle,360) · 2^{32 or 16} / 360)` and
`from_nexstar_units(units, precise) = units · 360 / 2^{32 or 16}`), to be
compared with the binary32 evaluation above. -/

/-- `to_nexstar_units` per the formula of the specification, exact arithmetic. -/
def to_nexstar_units_exact (angle : ℚ) (precise : Bool) : ℤ :=
  ⌊fmod_q angle 360 * (if precise then (2 : ℚ) ^ (32 : ℕ) else 2 ^ 16) / 360⌋

/-- `from_nexstar_units` per the formula of the specification, exact arithmetic. -/
def from_nexstar_units_exact (u : ℤ) (precise : Bool) : ℚ :=
  (u : ℚ) * 360 / (if precise then (2 : ℚ) ^ (32 : ℕ) else 2 ^ 16)

/-- `fix_declination` in exact arithmetic (same branch structure as the
source). -/
def fix_declination_exact (angle : ℚ) : ℚ :=
  let a := fmod_q angle 360
  let a2 := if a < 0 then a + 360 else a
  if 90 < a2 ∧ a2 ≤ 270 then 180 - a2
  else if 270 < a2 ∧ a2 ≤ 360 then a2 - 360
  else a2

/-- The declination encode of `goto_ra_de` in exact arithmetic. -/
def encode_declination_exact (de : ℚ) (precise : Bool) : ℤ :=
  to_nexstar_units_exact (if de < 0 then de + 360 else de) precise

end celestron

namespace alpaca

@[simp] theorem result.is_error_ok {α ε : Type} (v : α) :
    (result.ok v : result α ε).is_error = false := rfl

@[simp] theorem result.is_error_error {α ε : Type} (e : ε) :
    (result.error e : result α ε).is_error = true := rfl

@[simp] theorem result.get_err_error {α ε : Type} [Inhabited ε] (e : ε) :
    (result.error e : result α ε).get_err = e := rfl

/-- `first_error` returns the error of the leftmost error argument: if the
argument list decomposes as an all-ok prefix followed by `.error e`, the
result is `e`. -/
theorem first_error_of_prefix {α ε : Type} [Inhabited ε] (e : ε) :
    ∀ (pre : List (result α ε)) (r : result α ε) (rs post : List (result α ε)),
      r :: rs = pre ++ .error e :: post →
      (∀ x ∈ pre, x.is_error = false) →
      first_error r rs = e := by
  intro pre
  induction pre with
  | nil =>
    intro r rs post h _
    simp only [List.nil_append, List.cons.injEq] at h
    obtain ⟨h1, _⟩ := h
    subst h1
    cases rs with
    | nil => rfl
    | cons t ts => simp [first_error]
  | cons p ps ih =>
    intro r rs post h hok
    simp only [List.cons_append, List.cons.injEq] at h
    obtain ⟨h1, h2⟩ := h
    subst h1
    have hp : r.is_error = false := hok r (by simp)
    cases hrs : rs with
    | nil =>
      rw [hrs] at h2
      exact absurd h2.symm (by simp)
    | cons t ts =>
      rw [hrs] at h2
      simp only [first_error, hp, Bool.false_eq_true, if_false]
      exact ih t ts post h2 fun x hx => hok x (by simp [hx])

/-- C4. For every non-empty list of result arguments `r :: rs` and every
function `f`, the n-ary join `visit` returns `ok` exactly when every argument
is `ok`, in which case it applies `f` to the carried values; otherwise it
returns the error of the leftmost argument that is an error, unchanged.
(`visit` and `__detail::first_error`, `include/c++util.hpp` lines 135–147 and
488–517.) -/
theorem visit_join_spec {α β ε : Type} [Inhabited α] [Inhabited ε]
    (f : List α → β) (r : result α ε) (rs : List (result α ε)) :
    ((visit f r rs).is_error = false ↔ ∀ x ∈ r :: rs, x.is_error = false) ∧
    ((∀ x ∈ r :: rs, x.is_error = false) →
      visit f r rs = .ok (f ((r :: rs).map (·.get_val)))) ∧
    (∀ (pre post : List (result α ε)) (e : ε),
      r :: rs = pre ++ .error e :: post →
      (∀ x ∈ pre, x.is_error = false) →
      visit f r rs = .error e) := by
  have hiff : ((r :: rs).any (·.is_error) = false) ↔
      ∀ x ∈ r :: rs, x.is_error = false := by
    simp [List.any_eq_false]
  refine ⟨?_, ?_, ?_⟩
  · by_cases h : (r :: rs).any (·.is_error) = true
    · unfold visit
      rw [if_pos h]
      simp only [result.is_error_error]
      constructor
      · intro hc
        cases hc
      · intro hall
        rw [hiff.mpr hall] at h
        cases h
    · have h' : (r :: rs).any (·.is_error) = false := by
        simpa using h
      unfold visit
      rw [if_neg h]
      exact ⟨fun _ => hiff.mp h', fun _ => rfl⟩
  · intro hall
    unfold visit
    rw [if_neg (by simp [hiff.mpr hall])]
  · intro pre post e hdec hok
    unfold visit
    have hmem : result.error e ∈ r :: rs := by
      rw [hdec]
      simp
    have h : (r :: rs).any (·.is_error) = true := by
      simp only [List.any_eq_true]
      exact ⟨.error e, hmem, by simp⟩
    rw [if_pos h, first_error_of_prefix e pre r rs post hdec hok]

/-- Witness for C4: a concrete all-ok join and a concrete join whose second
argument is the leftmost error. -/
theorem visit_join_spec_witness :
    visit (fun l => l.length) (.ok 1) [.ok 2, .ok 3] =
      (.ok 3 : result ℕ String) ∧
    visit (fun l => l.length) (.ok 1) [.error "boom", .error "later"] =
      (.error "boom" : result ℕ String) := by
  constructor
  · exact (visit_join_spec (fun l => l.length) (.ok 1) [.ok 2, .ok 3]).2.1
      (by decide)
  · exact (visit_join_spec (fun l => l.length) (.ok 1)
      [.error "boom", .error "later"]).2.2 [.ok 1] [.error "later"] "boom"
      rfl (by decide)

/-- C2. Gate composition of the telescope facade, for the gated operations
`priv_moveaxis`, `priv_findhome` and `priv_put_declinationrate`
(`include/telescope.hpp` lines 1350–1358, 1632–1652): if the device is
disconnected the outcome is the `not_connected` error (0x407); with the
device connected, a failing value-range gate yields `invalid_value` (0x401)
and an absent capability bit yields `not_implemented` (0x400), in the
gate order of the source; when every gate passes, the driver-facing method is
invoked and its result is returned unchanged. In all error cases the outcome
is independent of the (universally quantified) driver-facing methods — the
driver is never reached. -/
theorem gate_composition
    (is_connected : Bool) (flags : ℕ) (axis : ℤ) (rate : ℚ)
    (moveaxis : ℤ → ℚ → check_t) (findhome : Unit → check_t)
    (put_declinationrate : ℚ → check_t) (declinationrate : ℚ) :
    (is_connected = false →
      priv_moveaxis is_connected flags moveaxis axis rate =
        .error not_connected ∧
      priv_findhome is_connected flags findhome = .error not_connected ∧
      priv_put_declinationrate is_connected flags put_declinationrate
        declinationrate = .error not_connected) ∧
    (is_connected = true → ¬(0 ≤ axis ∧ axis ≤ 2) →
      priv_moveaxis is_connected flags moveaxis axis rate =
        .error invalid_value) ∧
    (is_connected = true → (0 ≤ axis ∧ axis ≤ 2) →
      get_canmoveaxis flags axis = false →
      priv_moveaxis is_connected flags moveaxis axis rate =
        .error not_implemented) ∧
    (is_connected = true → (0 ≤ axis ∧ axis ≤ 2) →
      get_canmoveaxis flags axis = true → ¬(-9 < rate ∧ rate < 9) →
      priv_moveaxis is_connected flags moveaxis axis rate =
        .error invalid_value) ∧
    (is_connected = true → (0 ≤ axis ∧ axis ≤ 2) →
      get_canmoveaxis flags axis = true → (-9 < rate ∧ rate < 9) →
      priv_moveaxis is_connected flags moveaxis axis rate =
        moveaxis axis rate) ∧
    (is_connected = true → get_canfindhome flags = false →
      priv_findhome is_connected flags findhome = .error not_implemented) ∧
    (is_connected = true → get_canfindhome flags = true →
      priv_findhome is_connected flags findhome = findhome ()) ∧
    (is_connected = true → get_cansetdeclinationrate flags = false →
      priv_put_declinationrate is_connected flags put_declinationrate
        declinationrate = .error not_implemented) ∧
    (is_connected = true → get_cansetdeclinationrate flags = true →
      priv_put_declinationrate is_connected flags put_declinationrate
        declinationrate = put_declinationrate declinationrate) := by
  refine ⟨?_, ?_, ?_, ?_, ?_, ?_, ?_, ?_, ?_⟩
  · intro hc
    subst hc
    refine ⟨?_, ?_, ?_⟩ <;>
      simp [priv_moveaxis, priv_findhome, priv_put_declinationrate,
        visit_void, check_connected, first_error]
  · intro hc hax
    subst hc
    simp [priv_moveaxis, visit_void, check_connected, check_axis,
      check_value, first_error, hax]
  · intro hc hax hflag
    subst hc
    simp [priv_moveaxis, visit_void, check_connected, check_axis,
      check_value, check_flag, result.flat_map, first_error, hax, hflag]
  · intro hc hax hflag hrate
    subst hc
    simp [priv_moveaxis, visit_void, check_connected, check_axis,
      check_value, check_flag, result.flat_map, first_error, hax, hflag,
      hrate]
  · intro hc hax hflag hrate
    subst hc
    simp [priv_moveaxis, visit_void, check_connected, check_axis,
      check_value, check_flag, result.flat_map, first_error, hax, hflag,
      hrate]
  · intro hc hflag
    subst hc
    simp [priv_findhome, visit_void, check_connected, check_flag,
      result.flat_map, first_error, hflag]
  · intro hc hflag
    subst hc
    simp [priv_findhome, visit_void, check_connected, check_flag,
      result.flat_map, first_error, hflag]
  · intro hc hflag
    subst hc
    simp [priv_put_declinationrate, visit_void, check_connected, check_flag,
      result.flat_map, first_error, hflag]
  · intro hc hflag
    subst hc
    simp [priv_put_declinationrate, visit_void, check_connected, check_flag,
      result.flat_map, first_error, hflag]

/-- Witness for C2: each gate phase at a concrete input. Flag word `0x7FFFF`
has every capability bit set; flag word `0` has none. -/
theorem gate_composition_witness :
    priv_moveaxis false 0x7FFFF (fun _ _ => .ok ()) 0 1 =
      .error not_connected ∧
    priv_moveaxis true 0x7FFFF (fun _ _ => .ok ()) 5 1 =
      .error invalid_value ∧
    priv_moveaxis true 0 (fun _ _ => .ok ()) 1 1 =
      .error not_implemented ∧
    priv_moveaxis true 0x7FFFF (fun _ _ => .ok ()) 1 10 =
      .error invalid_value ∧
    priv_moveaxis true 0x7FFFF (fun _ _ => .ok ()) 1 1 = .ok () ∧
    priv_findhome true 0 (fun _ => .ok ()) = .error not_implemented ∧
    priv_put_declinationrate true 0x7FFFF (fun _ => .ok ()) 1 = .ok () := by
  refine ⟨?_, ?_, ?_, ?_, ?_, ?_, ?_⟩
  · exact ((gate_composition false 0x7FFFF 0 1 (fun _ _ => .ok ())
      (fun _ => .ok ()) (fun _ => .ok ()) 0).1 rfl).1
  · exact (gate_composition true 0x7FFFF 5 1 (fun _ _ => .ok ())
      (fun _ => .ok ()) (fun _ => .ok ()) 0).2.1 rfl (by decide)
  · exact (gate_composition true 0 1 1 (fun _ _ => .ok ())
      (fun _ => .ok ()) (fun _ => .ok ()) 0).2.2.1 rfl (by decide) (by decide)
  · exact (gate_composition true 0x7FFFF 1 10 (fun _ _ => .ok ())
      (fun _ => .ok ()) (fun _ => .ok ()) 0).2.2.2.1 rfl (by decide)
      (by decide) (by decide)
  · exact (gate_composition true 0x7FFFF 1 1 (fun _ _ => .ok ())
      (fun _ => .ok ()) (fun _ => .ok ()) 0).2.2.2.2.1 rfl (by decide)
      (by decide) (by decide)
  · exact (gate_composition true 0 0 0 (fun _ _ => .ok ())
      (fun _ => .ok ()) (fun _ => .ok ()) 0).2.2.2.2.2.1 rfl (by decide)
  · exact (gate_composition true 0x7FFFF 0 0 (fun _ _ => .ok ())
      (fun _ => .ok ()) (fun _ => .ok ()) 1).2.2.2.2.2.2.2.2 rfl (by decide)

/-- C3. Evaluation of `device_resource::handle_get` (`unnamed/part_005`
lines 151–190) at the boundary of the device-id bounds check, with exactly
one configured device. The source guards with
`device_id < 0 || (size_t)device_id > devices.size()` — a strict `>` where
the claim requires `>=` — so `device_id = 1 = devices.size()` slips past the
guard and `devices[1]` is read out of bounds (`none` in the model), instead of
producing the http 404 error the claim states. `device_id = 2` and
`device_id = -1` are rejected as the claim states. -/
theorem handle_get_bounds_eval :
    handle_get "telescope" [()] (fun _ => none) (fun _ => none) ()
      "GET" "telescope" 1 "altitude" = none ∧
    handle_get "telescope" [()] (fun _ => none) (fun _ => none) ()
      "GET" "telescope" 2 "altitude" =
      some (.error (http_error 404 "not found")) ∧
    handle_get "telescope" [()] (fun _ => none) (fun _ => none) ()
      "GET" "telescope" (-1) "altitude" =
      some (.error (http_error 404 "not found")) := by
  refine ⟨?_, ?_, ?_⟩ <;> rfl

/-- C1. Evaluation of `slew_variable_command_t` (`include/celestron/
celestron.hpp` lines 298–319) at the example input of the claim axis 0,
rate 1 °/s: the layout, device id 16, and the big-endian magnitude bytes
0x38, 0x40 (14400 quarter-arcseconds per second) are as the claim states,
but the command byte is 7 (`slew_variable_negative`) where the claim — and
the layout comments of the source itself and its `parse` inverse — require 6 for a
positive rate. -/
theorem slew_variable_sign_eval :
    slew_variable_command 0 1 = [80, 3, 16, 7, 0x38, 0x40, 0, 0] ∧
    (slew_variable_command 0 1).get? 3 = some 7 ∧ (7 : ℕ) ≠ 6 := by
  refine ⟨by with_unfolding_all decide, by with_unfolding_all decide,
    by decide⟩

/-- C10. `slew_variable_command_t` maps every axis other than 0 to the
altitude motor: the command for any `axis ≠ 0` is byte-for-byte the command
for axis 1 at the same rate and addresses device 17; and every command
addresses device 16 or device 17 — no third motor device is ever produced. -/
theorem slew_variable_axis_projection (axis : ℤ) (rate : ℚ) :
    (axis ≠ 0 →
      slew_variable_command axis rate = slew_variable_command 1 rate ∧
      (slew_variable_command axis rate).get? 2 = some 17) ∧
    ((slew_variable_command axis rate).get? 2 = some 16 ∨
      (slew_variable_command axis rate).get? 2 = some 17) := by
  constructor
  · intro h
    constructor
    · simp [slew_variable_command, h]
    · simp [slew_variable_command, h, List.get?]
  · by_cases h : axis = 0
    · left
      simp [slew_variable_command, h, List.get?]
    · right
      simp [slew_variable_command, h, List.get?]

/-- Witness for C10: axis 2 produces the axis-1 command addressed to the
altitude motor. -/
theorem slew_variable_axis_projection_witness :
    slew_variable_command 2 5 = slew_variable_command 1 5 ∧
    (slew_variable_command 2 5).get? 2 = some 17 :=
  (slew_variable_axis_projection 2 5).1 (by decide)

/-- C8. Target right ascension and declination
(`celestron_telescope::get_targetdeclination` /
`get_targetrightascension`, `include/celestron/celestron.hpp`
lines 1189–1213, gated by `include/telescope.hpp` lines 1529–1565): on a
freshly constructed, connected device, reading either target yields the
`value_not_set` error (0x402); after a facade write of an in-range value
(`-90 ≤ dec ≤ 90`, `0 ≤ ra ≤ 24`) on a connected device, the write succeeds
and a subsequent read returns exactly the written value. -/
theorem target_read_write_spec (s : celestron_target_state) (v : ℚ) :
    priv_get_targetdeclination (init_target_state true) =
      .error value_not_set ∧
    priv_get_targetrightascension (init_target_state true) =
      .error value_not_set ∧
    (s.is_connected = true → -90 ≤ v → v ≤ 90 →
      (priv_put_targetdeclination s v).1 = .ok () ∧
      priv_get_targetdeclination (priv_put_targetdeclination s v).2 =
        .ok v) ∧
    (s.is_connected = true → 0 ≤ v → v ≤ 24 →
      (priv_put_targetrightascension s v).1 = .ok () ∧
      priv_get_targetrightascension (priv_put_targetrightascension s v).2 =
        .ok v) := by
  refine ⟨by decide, by decide, ?_, ?_⟩
  · intro hc h1 h2
    have hv : v < 100 := lt_of_le_of_lt h2 (by norm_num)
    constructor
    · simp [priv_put_targetdeclination, check_connected, check_value, hc,
        h1, h2]
    · simp [priv_put_targetdeclination, priv_get_targetdeclination,
        get_targetdeclination, visit_void, check_connected, check_value,
        check_set, result.map, first_error, hc, h1, h2, hv]
  · intro hc h1 h2
    have hv : v < 100 := lt_of_le_of_lt h2 (by norm_num)
    constructor
    · simp [priv_put_targetrightascension, check_connected, check_value, hc,
        h1, h2]
    · simp [priv_put_targetrightascension, priv_get_targetrightascension,
        get_targetrightascension, visit_void, check_connected, check_value,
        check_set, result.map, first_error, hc, h1, h2, hv]

/-- Witness for C8: writing declination 45 and right ascension 6 to a
connected device succeeds, and the reads return the written values. -/
theorem target_read_write_spec_witness :
    (priv_put_targetdeclination (init_target_state true) 45).1 = .ok () ∧
    priv_get_targetdeclination
      (priv_put_targetdeclination (init_target_state true) 45).2 =
      .ok 45 ∧
    (priv_put_targetrightascension (init_target_state true) 6).1 = .ok () ∧
    priv_get_targetrightascension
      (priv_put_targetrightascension (init_target_state true) 6).2 =
      .ok 6 := by
  obtain ⟨hde1, hde2⟩ :=
    (target_read_write_spec (init_target_state true) 45).2.2.1 rfl
      (by decide) (by decide)
  obtain ⟨hra1, hra2⟩ :=
    (target_read_write_spec (init_target_state true) 6).2.2.2 rfl
      (by decide) (by decide)
  exact ⟨hde1, hde2, hra1, hra2⟩

theorem wrap32_small (k : ℤ) (h0 : 0 ≤ k) (h1 : k < 2 ^ 31) : wrap32 k = k := by
  unfold wrap32
  have e31 : (2 : ℤ) ^ 31 = 2147483648 := by norm_num
  have e32 : (2 : ℤ) ^ 32 = 4294967296 := by norm_num
  rw [e31, e32] at *
  omega

theorem wrap32_idem (n : ℤ) : wrap32 (wrap32 n + 1) = wrap32 (n + 1) := by
  unfold wrap32
  have e31 : (2 : ℤ) ^ 31 = 2147483648 := by norm_num
  have e32 : (2 : ℤ) ^ 32 = 4294967296 := by norm_num
  rw [e31, e32]
  omega

theorem server_transaction_after_eq (n : ℕ) :
    server_transaction_after n = wrap32 n := by
  induction n with
  | zero =>
    show (0 : ℤ) = wrap32 0
    unfold wrap32
    norm_num
  | succ n ih =>
    show inc_server_transaction (server_transaction_after n) = wrap32 (n + 1)
    rw [ih]
    unfold inc_server_transaction
    rw [wrap32_idem]

/-- Counterexample to C9: the `ServerTransactionID` counter is a 32-bit
signed `std::atomic<int>`; on the `2^31`-th rendered request the
pre-increment wraps (twos-complement, which C++ defines for atomic
arithmetic) to `-2^31`, which is smaller than the value `2^31 - 1` of the
preceding request — the envelope values are not strictly increasing across
that request. -/
theorem server_transaction_wraps :
    server_transaction_after (2 ^ 31) <
      server_transaction_after (2 ^ 31 - 1) := by
  rw [server_transaction_after_eq, server_transaction_after_eq]
  unfold wrap32
  have e31 : ((2 ^ 31 - 1 : ℕ) : ℤ) = 2147483647 := by norm_num
  have e31b : ((2 ^ 31 : ℕ) : ℤ) = 2147483648 := by norm_num
  rw [e31, e31b]
  norm_num

/-- C9 (amended). Across any sequence of fewer than `2^31` rendered requests
within one process, the `ServerTransactionID` placed in the response envelope
is strictly increasing: the value of request `j` is strictly greater than
the value of every earlier request `i` (`alpaca_resource::render`,
`include/resource.hpp` lines 108–116). The bound is forced by the 32-bit
signed counter, which wraps on the `2^31`-th increment. -/
theorem server_transaction_monotone (i j : ℕ) (hij : i < j)
    (hj : j < 2 ^ 31) :
    server_transaction_after i < server_transaction_after j := by
  rw [server_transaction_after_eq, server_transaction_after_eq]
  rw [wrap32_small i (by positivity) (by exact_mod_cast lt_trans hij hj),
    wrap32_small j (by positivity) (by exact_mod_cast hj)]
  exact_mod_cast hij

/-- Witness for C9 (amended): the envelope value of the second request exceeds that
of the first. -/
theorem server_transaction_monotone_witness :
    server_transaction_after 1 < server_transaction_after 2 :=
  server_transaction_monotone 1 2 (by norm_num) (by norm_num)

/-- Counterexample to C7: the per-axis step of the simulator advances by
`min(diff * rate, 9) * dt` — the cap applies only in the positive direction.
At target −30, current 0, dt = 1 s the advance is −30° in one second: its
magnitude exceeds 9, and the result differs from the symmetric rule of the claim,
`clamp(Δ·s, ±9)` rule, which would advance to −9. -/
theorem step_axis_unclamped :
    step_axis (-30) 0 1 = -30 ∧
    ¬|step_axis (-30) 0 1 - 0| ≤ 9 ∧
    step_axis (-30) 0 1 ≠ 0 + max (-9) (min ((-30 - 0) * 1) 9) * 1 := by
  refine ⟨?_, ?_, ?_⟩ <;> with_unfolding_all decide

/-- C7 (amended). In the slewing state of the simulator each step applies the
rule independently per axis with `Δ = target − current` and `d = |Δ|`: if
`d ≤ 0.1` then current is set exactly to target; otherwise current is
advanced by `min(Δ·s, 9°) · dt` — capped at 9°/s in the positive direction
only, negative advances are not clamped — where the speed factor `s` is 0.25
if `d ≤ 5`, 0.5 if `d ≤ 10`, 0.75 if `d ≤ 20`, and 1.0 otherwise; and the
state returns to idle exactly when both axes have reached their targets
(`simulator_protocol::step`, `include/celestron/celestron.hpp`
lines 722–771). -/
theorem step_axis_spec (target actual dt : ℚ) (s : simulator_state) :
    (|target - actual| ≤ 1/10 → step_axis target actual dt = target) ∧
    (1/10 < |target - actual| →
      step_axis target actual dt =
        actual + min ((target - actual) *
          (if |target - actual| ≤ 5 then 1/4
           else if |target - actual| ≤ 10 then 1/2
           else if |target - actual| ≤ 20 then 3/4 else 1)) 9 * dt) ∧
    (1/10 < |target - actual| → 0 ≤ dt →
      step_axis target actual dt - actual ≤ 9 * dt) ∧
    (s.state = .slewing →
      ((sim_step s dt).state = .no_op ↔
        (sim_step s dt).rightascension = s.target_rightascension ∧
        (sim_step s dt).declination = s.target_declination)) := by
  refine ⟨?_, ?_, ?_, ?_⟩
  · intro h
    simp only [step_axis]
    rw [if_pos h]
  · intro h
    simp only [step_axis]
    rw [if_neg (not_le.mpr h)]
  · intro h hdt
    simp only [step_axis]
    rw [if_neg (not_le.mpr h)]
    have hmin := min_le_right ((target - actual) *
      (if |target - actual| ≤ 5 then (1 : ℚ)/4
       else if |target - actual| ≤ 10 then 1/2
       else if |target - actual| ≤ 20 then 3/4 else 1)) 9
    linarith [mul_le_mul_of_nonneg_right hmin hdt]
  · intro hs
    unfold sim_step
    rw [hs]
    dsimp only
    by_cases h : s.target_rightascension ≠
        step_axis s.target_rightascension s.rightascension dt ∨
        s.target_declination ≠
        step_axis s.target_declination s.declination dt
    · rw [if_pos h]
      refine iff_of_false (by simp) ?_
      rintro ⟨hr, hd⟩
      rcases h with h | h
      · exact h hr.symm
      · exact h hd.symm
    · rw [if_neg h]
      push_neg at h
      exact iff_of_true rfl ⟨h.1.symm, h.2.symm⟩

/-- Witness for C7 (amended): a snap step, a capped positive advance, and an
idle transition at concrete inputs. -/
theorem step_axis_spec_witness :
    step_axis (1/20) 0 1 = 1/20 ∧
    step_axis 100 0 1 - 0 ≤ 9 * 1 ∧
    ((sim_step ⟨0, 0, 0, 0, 0, 0, .slewing⟩ 1).state = .no_op ↔
      (sim_step ⟨0, 0, 0, 0, 0, 0, .slewing⟩ 1).rightascension = 0 ∧
      (sim_step ⟨0, 0, 0, 0, 0, 0, .slewing⟩ 1).declination = 0) := by
  refine ⟨?_, ?_, ?_⟩
  · exact (step_axis_spec (1/20) 0 1 ⟨0, 0, 0, 0, 0, 0, .slewing⟩).1
      (by with_unfolding_all decide)
  · exact (step_axis_spec 100 0 1 ⟨0, 0, 0, 0, 0, 0, .slewing⟩).2.2.1
      (by with_unfolding_all decide) (by decide)
  · exact (step_axis_spec 100 0 1 ⟨0, 0, 0, 0, 0, 0, .slewing⟩).2.2.2 rfl

end alpaca

namespace celestron

theorem fmod_q_self (x : ℚ) (h0 : 0 ≤ x) (h1 : x < 360) : fmod_q x 360 = x := by
  unfold fmod_q trunc_q
  have hx : (0 : ℚ) ≤ x / 360 := by positivity
  rw [if_pos hx]
  have hfloor : ⌊x / 360⌋ = 0 := by
    rw [Int.floor_eq_zero_iff]
    exact ⟨hx, (div_lt_one (by norm_num)).mpr h1⟩
  rw [hfloor]
  push_cast
  ring

/-- Bounds of the exact-arithmetic encode/decode round trip: the decoded
angle is at most the original and lies within one unit step below it. -/
theorem from_to_exact_bounds (x : ℚ) (p : Bool) (h0 : 0 ≤ x) (h1 : x < 360) :
    from_nexstar_units_exact (to_nexstar_units_exact x p) p ≤ x ∧
    x - 360 / (if p then (2 : ℚ) ^ (32 : ℕ) else 2 ^ 16) <
      from_nexstar_units_exact (to_nexstar_units_exact x p) p ∧
    0 ≤ from_nexstar_units_exact (to_nexstar_units_exact x p) p := by
  have hKpos : (0 : ℚ) < (if p then (2 : ℚ) ^ (32 : ℕ) else 2 ^ 16) := by
    cases p <;> norm_num
  set K : ℚ := if p then (2 : ℚ) ^ (32 : ℕ) else 2 ^ 16 with hK
  have h360 : (0 : ℚ) < 360 := by norm_num
  unfold from_nexstar_units_exact to_nexstar_units_exact
  rw [← hK, fmod_q_self x h0 h1]
  set u : ℤ := ⌊x * K / 360⌋ with hu
  have hle : (u : ℚ) ≤ x * K / 360 := Int.floor_le _
  have hgt : x * K / 360 - 1 < (u : ℚ) := Int.sub_one_lt_floor _
  have hunn : (0 : ℚ) ≤ (u : ℚ) := by
    have hnum : (0 : ℚ) ≤ x * K / 360 := by positivity
    exact_mod_cast Int.floor_nonneg.mpr hnum
  refine ⟨?_, ?_, ?_⟩
  · rw [div_le_iff₀ hKpos]
    have h2 : (u : ℚ) * 360 ≤ x * K := (le_div_iff₀ h360).mp hle
    linarith
  · have h3 : x * K / 360 < (u : ℚ) + 1 := by linarith
    have h2 : x * K < ((u : ℚ) + 1) * 360 := by
      have h5 : x * K / 360 * 360 = x * K := by field_simp
      nlinarith
    have h4 : (u : ℚ) * 360 / K + 360 / K = ((u : ℚ) + 1) * 360 / K := by
      ring
    rw [sub_lt_iff_lt_add, h4, lt_div_iff₀ hKpos]
    exact h2
  · positivity

set_option maxRecDepth 100000 in
/-- Counterexample to C6: the codec computes in binary32. At the angle 100°
(exactly representable) in precise mode, `degree_to_nexstar` yields unit
value 1193046528 and `nexstar_to_degree` returns 100 + 2⁻¹⁷ ≈ 100.0000076°:
the round-trip error 2⁻¹⁷ exceeds the claimed precision 360/2³² ≈ 8.4·10⁻⁸
by more than two orders of magnitude. -/
theorem nexstar_roundtrip_f32_exceeds :
    ¬|nexstar_to_degree_f32 (degree_to_nexstar_f32 100 true) true - 100| <
      360 / 2 ^ 32 := by
  with_unfolding_all decide

/-- C6 (amended). For every angle x in [0°, 360°) and each precision flag p,
the conversion formulas of the specification evaluated in exact arithmetic
round-trip within the stated precision: 360/2¹⁶ degrees for the coarse
encoding and 360/2³² for the precise one. (The binary32 float evaluation of the code does not attain the precise bound.) -/
theorem nexstar_roundtrip_exact (x : ℚ) (p : Bool) (h0 : 0 ≤ x)
    (h1 : x < 360) :
    |from_nexstar_units_exact (to_nexstar_units_exact x p) p - x| <
      360 / (if p then (2 : ℚ) ^ (32 : ℕ) else 2 ^ 16) := by
  obtain ⟨hle, hgt, _⟩ := from_to_exact_bounds x p h0 h1
  have hKpos : (0 : ℚ) < (if p then (2 : ℚ) ^ (32 : ℕ) else 2 ^ 16) := by
    cases p <;> norm_num
  have htolpos : (0 : ℚ) < 360 / (if p then (2 : ℚ) ^ (32 : ℕ) else 2 ^ 16) :=
    div_pos (by norm_num) hKpos
  rw [abs_lt]
  constructor <;> linarith

/-- Witness for C6 (amended): the precise-mode exact round trip at 100°. -/
theorem nexstar_roundtrip_exact_witness :
    |from_nexstar_units_exact (to_nexstar_units_exact 100 true) true - 100| <
      360 / (if true then (2 : ℚ) ^ (32 : ℕ) else 2 ^ 16) :=
  nexstar_roundtrip_exact 100 true (by norm_num) (by norm_num)

set_option maxRecDepth 100000 in
/-- Counterexample to C5: in binary32, encoding declination 50° in precise
mode yields unit value 596523264, and decoding (with the declination
normalisation) returns 50 + 2⁻¹⁸°: the error 2⁻¹⁸ exceeds the angular precision of the precise
encoding, 360/2³². -/
theorem declination_roundtrip_f32_exceeds :
    ¬|decode_declination_f32 (encode_declination_f32 50 true) true - 50| <
      360 / 2 ^ 32 := by
  with_unfolding_all decide

/-- C5 (amended). For every declination d in [−90°, +90°] and precision flag
p, encoding d for the wire (adding 360° when d is negative, then converting
to nexstar units) followed by decoding (converting back to degrees and
applying the declination normalisation mapping (90°, 270°] to 180° − x and
(270°, 360°] to x − 360°) yields d again within the angular precision
360/2^w of the chosen unit width — when the conversions are evaluated in
exact arithmetic. (The binary32 evaluation of the code does not attain the
precise-mode bound.) -/
theorem declination_roundtrip_exact (d : ℚ) (p : Bool) (h0 : -90 ≤ d)
    (h1 : d ≤ 90) :
    |fix_declination_exact
        (from_nexstar_units_exact (encode_declination_exact d p) p) - d| <
      360 / (if p then (2 : ℚ) ^ (32 : ℕ) else 2 ^ 16) := by
  have hKpos : (0 : ℚ) < (if p then (2 : ℚ) ^ (32 : ℕ) else 2 ^ 16) := by
    cases p <;> norm_num
  have hK2 : (65536 : ℚ) ≤ (if p then (2 : ℚ) ^ (32 : ℕ) else 2 ^ 16) := by
    cases p <;> norm_num
  set K : ℚ := if p then (2 : ℚ) ^ (32 : ℕ) else 2 ^ 16 with hK
  have htol : 360 / K < 1 := by
    rw [div_lt_one hKpos]
    linarith
  have htolpos : 0 < 360 / K := div_pos (by norm_num) hKpos
  by_cases hd : d < 0
  · have hx0 : (0 : ℚ) ≤ d + 360 := by linarith
    have hx1 : d + 360 < 360 := by linarith
    unfold encode_declination_exact
    rw [if_pos hd]
    obtain ⟨hle, hgt, hnn⟩ := from_to_exact_bounds (d + 360) p hx0 hx1
    rw [← hK] at hgt
    set y := from_nexstar_units_exact (to_nexstar_units_exact (d + 360) p) p
      with hy
    have hy360 : y < 360 := lt_of_le_of_lt hle hx1
    simp only [fix_declination_exact]
    rw [fmod_q_self y hnn hy360, if_neg (not_lt.mpr hnn)]
    by_cases hy270 : y ≤ 270
    · have hy90 : 90 < y := by linarith
      rw [if_pos ⟨hy90, hy270⟩]
      rw [abs_lt]
      constructor <;> linarith
    · rw [if_neg (fun hc => hy270 hc.2),
        if_pos ⟨not_le.mp hy270, le_of_lt hy360⟩]
      rw [abs_lt]
      constructor <;> linarith
  · push_neg at hd
    unfold encode_declination_exact
    rw [if_neg (not_lt.mpr hd)]
    obtain ⟨hle, hgt, hnn⟩ := from_to_exact_bounds d p hd (by linarith)
    rw [← hK] at hgt
    set y := from_nexstar_units_exact (to_nexstar_units_exact d p) p with hy
    have hy360 : y < 360 := by linarith
    simp only [fix_declination_exact]
    rw [fmod_q_self y hnn hy360, if_neg (not_lt.mpr hnn)]
    rw [if_neg (fun hc : 90 < y ∧ y ≤ 270 => absurd hc.1 (by linarith))]
    rw [if_neg (fun hc : 270 < y ∧ y ≤ 360 => absurd hc.1 (by linarith))]
    rw [abs_lt]
    constructor <;> linarith

/-- Witness for C5 (amended): the precise-mode exact declination round trip
at −45°. -/
theorem declination_roundtrip_exact_witness :
    |fix_declination_exact
        (from_nexstar_units_exact (encode_declination_exact (-45) true)
          true) - (-45)| <
      360 / (if true then (2 : ℚ) ^ (32 : ℕ) else 2 ^ 16) :=
  declination_roundtrip_exact (-45) true (by norm_num) (by norm_num)

end celestron
